import Mathlib

/-
Verification of the multi-agent chat system (coordinator / memory agent /
analysis agent / research agent / vector store).

The Python source is shallowly embedded:
  * dictionaries with a fixed key set become structures (keys that are read
    through `.get(key, default)` and may be absent become `Option` fields or
    fields with the dict-read default);
  * Python's stable `list.sort(key=f, reverse=True)` is modelled by insertion
    sort with the relation `f b ≤ f a`, which is the unique stable descending
    sort;
  * `datetime.now()` timestamps are modelled as `Nat` values supplied by the
    caller (the format string compares chronologically);
  * float arithmetic on similarity scores is modelled with `ℚ` in the memory
    and coordinator layers, and with `ℝ` in the vector-store layer (where a
    square root appears);
  * the unseeded Python `hash` used by the vector store is a parameter
    `hashW : String → Nat`.
-/

namespace MultiAgent

/-! ## Python string primitives -/

/-- Bool test that the first list is an initial segment of the second. -/
def isInitSeg : List Char → List Char → Bool
  | [], _ => true
  | _ :: _, [] => false
  | a :: as, b :: bs => a = b && isInitSeg as bs

/-- Bool test that `pat` occurs contiguously inside `l` (Python `pat in s`).
The empty pattern occurs in every string, as in Python. -/
def listHasInfix (pat : List Char) : List Char → Bool
  | [] => decide (pat = [])
  | c :: rest => isInitSeg pat (c :: rest) || listHasInfix pat rest

/-- Python `pat in s` on strings: `strContainsPy s pat` is true iff `pat`
is a substring of `s`. -/
def strContainsPy (s pat : String) : Bool :=
  listHasInfix pat.toList s.toList

/-- Helper for `pyWords`: accumulates the current word (reversed). -/
def wordsAux : List Char → List Char → List String
  | [], acc => if acc = [] then [] else [String.mk acc.reverse]
  | c :: rest, acc =>
    if c.isWhitespace then
      if acc = [] then wordsAux rest []
      else String.mk acc.reverse :: wordsAux rest []
    else wordsAux rest (c :: acc)

/-- Python `s.split()` with no argument: split on whitespace runs, dropping
empty pieces. -/
def pyWords (s : String) : List String :=
  wordsAux s.toList []

/-- Python `s[-n:]` (for `n ≥ 0`) on lists: the last `n` elements, except that
`n = 0` yields the whole list (as `l[-0:] = l[0:]` does in Python). -/
def pyTakeLast (n : Nat) (l : List α) : List α :=
  if n = 0 then l else l.drop (l.length - n)

/-- Python `''.join(c for c in word if c.isalnum())`. -/
def stripNonAlnum (w : String) : String :=
  String.mk (w.toList.filter Char.isAlphanum)

/-- Python `str.lower()` (ASCII behaviour), implemented over the character
list so that it evaluates by kernel reduction. -/
def pyLower (s : String) : String :=
  String.mk (s.toList.map Char.toLower)

/-- Python `str.rstrip(".")`: drop all trailing dots. -/
def rstripDots (s : String) : String :=
  String.mk ((s.toList.reverse.dropWhile (fun c => c = '.')).reverse)

/-- Helper for `titlePy`: Python `str.title()` over a character stream, the
Bool records whether the previous character was alphabetic. -/
def titleAux : List Char → Bool → List Char
  | [], _ => []
  | c :: cs, prevAlpha =>
    if c.isAlpha then
      (if prevAlpha then c.toLower else c.toUpper) :: titleAux cs true
    else c :: titleAux cs false

/-- Python `str.title()` (ASCII behaviour): uppercase each letter that follows
a non-letter, lowercase the rest. -/
def titlePy (s : String) : String :=
  String.mk (titleAux s.toList false)

/-! ## Stable sorting (model of Python `list.sort`)

Python `list.sort(key=f, reverse=True)` is a stable descending sort; it is
modelled by `List.insertionSort` with the relation `f b ≤ f a`, which keeps
elements with equal keys in their original order. -/

/-- Stable descending sort by key `f`: the model of
`l.sort(key=f, reverse=True)`. -/
def sortByDesc {β : Type} [LinearOrder β] (f : α → β) (l : List α) : List α :=
  l.insertionSort (fun a b => f b ≤ f a)

/-- Stable ascending sort by key `f` (the order in which faiss returns
distances). -/
def sortByAsc {β : Type} [LinearOrder β] (f : α → β) (l : List α) : List α :=
  l.insertionSort (fun a b => f a ≤ f b)

/-! ## Data model (src/agents/memory_agent.py, src/core/message.py)

A Python metadata dict; each field models one key that the source reads via
`metadata.get(key, default)`, `none` meaning the key is absent. -/

structure Metadata where
  topic : Option String := none
  agent : Option String := none
  source : Option String := none
  confidence : Option ℚ := none
  query : Option String := none
  complexity : Option String := none
deriving DecidableEq, Repr

/-- A memory record dict as built by `MemoryAgent._store_memory`.  `id` is the
`"mem_{n}"` string; `type` is the memory category string; `timestamp` models
the `"%Y-%m-%d %H:%M:%S"` string, whose lexicographic order is chronological,
as a `Nat`. -/
structure MemRecord where
  id : String
  type : String
  content : String
  metadata : Metadata
  timestamp : Nat
deriving DecidableEq, Repr

/-- A research result dict as produced by `ResearchAgent._research` (all five
keys are always present in records the source constructs). -/
structure ResearchRecord where
  topic : String
  summary : String
  details : String
  source : String
  confidence : ℚ
deriving DecidableEq, Repr

/-- The `MemoryAgent` state.  `vsEntries` pairs the vector store's
`vector_to_id` list with the vectors held at the same positions of the faiss
index (both are appended in lockstep by `VectorStore.add`); the vector type
`V` is opaque to the memory agent, which only ever appends `embed text`.
`knowledge` and `agentState` model the `dict`s of lists with Python's
insertion-ordered keys as association lists. -/
structure MemoryState (V : Type) where
  vsEntries : List (String × V)
  conversation : List MemRecord
  knowledge : List (String × List MemRecord)
  agentState : List (String × List MemRecord)
  counter : Nat
deriving DecidableEq

/-- The fresh `Coordinator`'s memory: everything empty, counter 0. -/
def initMemoryState (V : Type) : MemoryState V :=
  ⟨[], [], [], [], 0⟩

/-- The `f"mem_{n}"` record id. -/
def mkMemId (n : Nat) : String :=
  "mem_" ++ toString n

/-- The dict returned by `MemoryAgent._store_memory`. -/
structure StoreResult where
  memory_id : String
  status : String
  memory_type : String
deriving DecidableEq, Repr

/-- Append a record under key `k` of an insertion-ordered dict of lists
(`if k not in d: d[k] = []` followed by `d[k].append(r)`). -/
def appendAt (k : String) (r : MemRecord) :
    List (String × List MemRecord) → List (String × List MemRecord)
  | [] => [(k, [r])]
  | (k2, rs) :: rest =>
    if k2 = k then (k2, rs ++ [r]) :: rest
    else (k2, rs) :: appendAt k r rest

/-- Model of `MemoryAgent._store_memory`.  `memory_type`, `content` and `metadata` are
the payload fields (with their `payload.get` defaults already applied by the
callers), `now` the `datetime.now()` timestamp, `embed` the
`VectorStore.add` vectorization of the search text.  Returns the result
dict and the new state; the source has no failure path. -/
def store_memory (embed : String → V) (st : MemoryState V)
    (memory_type content : String) (metadata : Metadata) (now : Nat) :
    StoreResult × MemoryState V :=
  let memory_id := mkMemId st.counter
  let record : MemRecord := ⟨memory_id, memory_type, content, metadata, now⟩
  let conversation :=
    if memory_type = "conversation" then st.conversation ++ [record]
    else st.conversation
  let knowledge :=
    if memory_type = "knowledge" then
      appendAt (metadata.topic.getD "general") record st.knowledge
    else st.knowledge
  let agentState :=
    if memory_type = "agent_state" then
      appendAt (metadata.agent.getD "unknown") record st.agentState
    else st.agentState
  let search_text := metadata.topic.getD "" ++ " " ++ content
  (⟨memory_id, "stored", memory_type⟩,
   ⟨st.vsEntries ++ [(memory_id, embed search_text)],
    conversation, knowledge, agentState, st.counter + 1⟩)

/-- All memory records in the iteration order used by `_find_memory_by_id`
and `_keyword_search`: conversation log, then the knowledge dict's lists in
key-insertion order, then the agent-state dict's lists. -/
def allMemories (st : MemoryState V) : List MemRecord :=
  st.conversation ++ (st.knowledge.map Prod.snd).flatten ++
    (st.agentState.map Prod.snd).flatten

/-- Model of `MemoryAgent._find_memory_by_id`: first record with the given id, in
`allMemories` order. -/
def findById (st : MemoryState V) (memory_id : String) : Option MemRecord :=
  (allMemories st).find? (fun m => m.id = memory_id)

/-- The list built by the three `results.extend(...)` blocks of
`MemoryAgent._retrieve_memory` before sorting: the last `limit` conversation
records (Python `[-limit:]`), then every knowledge record grouped by topic,
then every agent-state record grouped by agent. -/
def collectMemories (st : MemoryState V) (memory_type : String) (limit : Nat) :
    List MemRecord :=
  (if memory_type = "conversation" ∨ memory_type = "all" then
    pyTakeLast limit st.conversation
  else []) ++
  (if memory_type = "knowledge" ∨ memory_type = "all" then
    (st.knowledge.map Prod.snd).flatten
  else []) ++
  (if memory_type = "agent_state" ∨ memory_type = "all" then
    (st.agentState.map Prod.snd).flatten
  else [])

/-- Model of `MemoryAgent._retrieve_memory`: collect, stable-sort descending by
timestamp, truncate to `limit`. -/
def retrieve_memory (st : MemoryState V) (memory_type : String) (limit : Nat) :
    List MemRecord :=
  (sortByDesc (fun m => m.timestamp) (collectMemories st memory_type limit)).take
    limit

/-- The per-record match score of `MemoryAgent._keyword_search`: 1 for a
substring hit of the lowercased query in content or topic, otherwise the
fraction of distinct query words occurring in the content/topic word sets
(0 when there is no overlap). -/
def keywordMatchScore (query_lower : String) (m : MemRecord) : ℚ :=
  let content := pyLower m.content
  let topic := pyLower (m.metadata.topic.getD "")
  let content_words := (pyWords content).dedup
  let topic_words := (pyWords topic).dedup
  let query_words := (pyWords query_lower).dedup
  if strContainsPy content query_lower ∨ strContainsPy topic query_lower
  then 1
  else
    let overlap := query_words.filter
      (fun w => w ∈ content_words ∨ w ∈ topic_words)
    if overlap ≠ [] then
      (overlap.length : ℚ) / (query_words.length : ℚ)
    else 0

/-- Model of `MemoryAgent._keyword_search`: score every record, keep positive scores,
stable-sort descending by score, truncate. -/
def keyword_search (st : MemoryState V) (query : String) (limit : Nat) :
    List (MemRecord × ℚ) :=
  let query_lower := pyLower query
  let scored := (allMemories st).filterMap (fun m =>
    if keywordMatchScore query_lower m > 0 then
      some (m, keywordMatchScore query_lower m)
    else none)
  (sortByDesc Prod.snd scored).take limit

/-- A record dict carrying the attached `similarity_score` key, as returned
by `MemoryAgent._search_memory`. -/
structure ScoredMem where
  record : MemRecord
  score : ℚ
deriving DecidableEq, Repr

/-- The vector path of `_search_memory`: resolve each `(id, similarity)` pair
returned by the vector store back to its record, silently dropping ids that
resolve to no record. -/
def resolveVec (st : MemoryState V) (vecRes : List (String × ℚ)) :
    List ScoredMem :=
  vecRes.filterMap (fun p => (findById st p.1).map (fun m => ⟨m, p.2⟩))

/-- Model of `MemoryAgent._search_memory`.  `vecRes` is the value of
`self.vector_store.search(query, top_k=limit)` (similarity scores as
rationals at this boundary); keyword hits not already found by the vector
path are merged in with the fixed score 0.7; the union is stable-sorted
descending by score and truncated. -/
def search_memory (st : MemoryState V) (vecRes : List (String × ℚ))
    (query : String) (search_type : String) (limit : Nat) : List ScoredMem :=
  let vres : List ScoredMem :=
    if search_type = "vector" ∨ search_type = "hybrid" then
      resolveVec st vecRes
    else []
  let results : List ScoredMem :=
    if search_type = "keyword" ∨ search_type = "hybrid" then
      let keyword_results := keyword_search st query limit
      let existing_ids := vres.map (fun r => r.record.id)
      vres ++ (keyword_results.filter
        (fun kr => ¬ kr.1.id ∈ existing_ids)).map (fun kr => ⟨kr.1, 7/10⟩)
    else vres
  (sortByDesc (fun r => r.score) results).take limit

/-! ## Vector store (src/memory/vector_store.py)

`faiss.IndexFlatL2` stores raw vectors in insertion order and, on `search`,
returns the `top_k` entries with the smallest SQUARED Euclidean (L2)
distances, in ascending distance order (faiss documents that `IndexFlatL2`
reports squared L2 distances, not square roots).  `hashW` models the
unseeded builtin `hash` on the stripped word. -/

/-- The hash-bucket sequence of `VectorStore.text_to_vector`: for each
whitespace word of the lowercased text, strip non-alphanumerics and, if
anything survives, emit `hash(word) % dimension`. -/
def buckets (hashW : String → Nat) (dimension : Nat) (text : String) :
    List Nat :=
  (pyWords (pyLower text)).filterMap (fun w =>
    let w2 := stripNonAlnum w
    if w2 = "" then none else some (hashW w2 % dimension))

/-- Increment position `i` of a vector (`vector[position] += 1.0`). -/
def bump (v : List ℝ) (i : Nat) : List ℝ :=
  v.set i (v.getD i 0 + 1)

/-- The raw (pre-normalization) count vector. -/
def countVec (dimension : Nat) (bs : List Nat) : List ℝ :=
  bs.foldl bump (List.replicate dimension 0)

/-- Squared magnitude of a vector. -/
def sqNorm (v : List ℝ) : ℝ :=
  (v.map (fun x => x ^ 2)).sum

/-- Model of `np.linalg.norm`-based normalization: divide by the magnitude when it is
positive, otherwise leave the zero vector untouched. -/
noncomputable def normalize (v : List ℝ) : List ℝ :=
  if Real.sqrt (sqNorm v) > 0 then
    v.map (fun x => x / Real.sqrt (sqNorm v))
  else v

/-- Model of `VectorStore.text_to_vector`. -/
noncomputable def text_to_vector (hashW : String → Nat) (dimension : Nat)
    (text : String) : List ℝ :=
  normalize (countVec dimension (buckets hashW dimension text))

/-- The `VectorStore` class state: the configured dimension and the
`(vector_to_id[i], i-th indexed vector)` pairs in insertion order. -/
structure VectorStore where
  dimension : Nat
  entries : List (String × List ℝ)

/-- Model of `VectorStore.add`. -/
noncomputable def VectorStore.add (vs : VectorStore) (hashW : String → Nat)
    (memory_id text : String) : VectorStore :=
  ⟨vs.dimension, vs.entries ++ [(memory_id, text_to_vector hashW vs.dimension text)]⟩

/-- Model of `VectorStore.size` (`index.ntotal`). -/
def VectorStore.size (vs : VectorStore) : Nat :=
  vs.entries.length

/-- Squared Euclidean distance between two vectors of equal length. -/
def sqDist (u v : List ℝ) : ℝ :=
  ((u.zip v).map (fun p => (p.1 - p.2) ^ 2)).sum

/-- Euclidean (L2) distance, used only to state the original claim C4. -/
noncomputable def l2Dist (u v : List ℝ) : ℝ :=
  Real.sqrt (sqDist u v)

/-- Model of `VectorStore.search`: empty result on an empty index; otherwise compute
the query vector, rank all entries by squared L2 distance ascending (the
faiss `IndexFlatL2` contract), keep `min top_k ntotal` of them, and convert
each squared distance `d` to the score `1 / (1 + d)`.  The source's
`idx < len(self.vector_to_id)` guard is always true, since the faiss index
and `vector_to_id` are appended in lockstep. -/
noncomputable def VectorStore.search (vs : VectorStore) (hashW : String → Nat)
    (query_text : String) (top_k : Nat) : List (String × ℝ) :=
  if vs.entries.isEmpty then []
  else
    let query_vector := text_to_vector hashW vs.dimension query_text
    let scored := vs.entries.map (fun e => (e.1, sqDist query_vector e.2))
    ((sortByAsc Prod.snd scored).take (min top_k vs.entries.length)).map
      (fun e => (e.1, 1 / (1 + e.2)))

/-! ## Coordinator: complexity analysis and planning (src/agents/coordinator.py) -/

/-- The `complex_keywords` list of `Coordinator._analyze_complexity`. -/
def complexKeywords : List String :=
  ["compare", "analyze", "evaluate", "research and",
   "find and", "identify and", "synthesize", "trade-offs",
   "trade-off", "advantages and disadvantages", "pros and cons"]

/-- The `medium_keywords` list of `Coordinator._analyze_complexity`. -/
def mediumKeywords : List String :=
  ["explain", "describe", "how", "why", "relationship",
   "difference", "similarity", "methodology"]

/-- The `memory_keywords` list of `Coordinator._analyze_complexity`
(seven entries). -/
def memoryKeywordsClassify : List String :=
  ["earlier", "previous", "before", "discussed",
   "we talked", "mentioned", "said"]

/-- The `memory_keywords` list of `Coordinator._create_execution_plan`
(five entries: `"mentioned"` and `"said"` are absent here). -/
def memoryKeywordsPlan : List String :=
  ["earlier", "previous", "before", "discussed", "we talked"]

/-- Does the lowercased query contain any keyword of the list
(`any(keyword in query_lower for keyword in kws)`)? -/
def containsAnyKw (query_lower : String) (kws : List String) : Bool :=
  kws.any (fun k => strContainsPy query_lower k)

/-- Model of `Coordinator._analyze_complexity`. -/
def analyze_complexity (query : String) : String :=
  let query_lower := pyLower query
  if containsAnyKw query_lower memoryKeywordsClassify then "simple"
  else if containsAnyKw query_lower complexKeywords then "complex"
  else if containsAnyKw query_lower mediumKeywords then "medium"
  else if query.toList.count '?' > 1 ∨ query.toList.count ',' > 2 then
    "complex"
  else "simple"

/-- The `topic_keywords` table of `Coordinator._extract_research_topics`,
in dict insertion order. -/
def topicKeywords : List (String × List String) :=
  [("neural networks", ["neural network", "neural net"]),
   ("transformers", ["transformer", "transformer architecture"]),
   ("reinforcement learning", ["reinforcement learning", "rl", "reinforcement"]),
   ("machine learning", ["machine learning", "ml"]),
   ("deep learning", ["deep learning"]),
   ("cnn", ["cnn", "convolutional"]),
   ("rnn", ["rnn", "recurrent"])]

/-- The `stop_words` set of `Coordinator._extract_research_topics`. -/
def stopWords : List String :=
  ["what", "are", "the", "is", "a", "an", "how", "why", "about"]

/-- Model of `Coordinator._extract_research_topics`: table topics whose keywords occur
in the lowercased query; if none, the first three meaningful words (not a
stop word, longer than three characters) joined into one topic; at most two
topics. -/
def extract_research_topics (query : String) : List String :=
  let query_lower := pyLower query
  let topics := topicKeywords.filterMap (fun t =>
    if t.2.any (fun kw => strContainsPy query_lower kw) then some t.1
    else none)
  let topics :=
    if topics = [] then
      let words := pyWords query_lower
      let meaningful_words := words.filter
        (fun w => ¬ w ∈ stopWords ∧ w.length > 3)
      if meaningful_words ≠ [] then
        [String.intercalate " " (meaningful_words.take 3)]
      else []
    else topics
  topics.take 2

/-- Model of `Coordinator._determine_analysis_type`. -/
def determine_analysis_type (query : String) : String :=
  let query_lower := pyLower query
  if strContainsPy query_lower "compare" ∨ strContainsPy query_lower "comparison"
  then "comparison"
  else if strContainsPy query_lower "trade-off" ∨
      strContainsPy query_lower "tradeoffs" then "trade_offs"
  else if strContainsPy query_lower "methodology" ∨
      strContainsPy query_lower "methods" then "methodology"
  else if strContainsPy query_lower "challenge" ∨
      strContainsPy query_lower "challenges" then "challenges"
  else if strContainsPy query_lower "analyze" ∨
      strContainsPy query_lower "analysis" then "synthesis"
  else "general"

/-- One step dict of the execution plan. -/
structure PlanStep where
  step : Nat
  agent : String
  action : String
  reason : String
  topic : Option String := none
  analysis_type : Option String := none
  depends_on : Option (List Nat) := none
deriving DecidableEq, Repr

/-- The single memory step appended by the planner's short circuit. -/
def memoryPlanStep : PlanStep :=
  { step := 1, agent := "MemoryAgent", action := "retrieve_conversation",
    reason := "Query asks about previous conversation" }

/-- The `needs_research` flag of `Coordinator._create_execution_plan`.
`memScores` lists the `similarity_score` values of the memory search results
(the result dict's `count` equals its length); `sum / max(count, 1)` must
exceed 0.8 with a `simple` complexity for research to be skipped. -/
def needsResearch (complexity : String) (memScores : List ℚ) : Bool :=
  if memScores.length > 0 then
    let memory_confidence := memScores.sum / (max memScores.length 1 : ℚ)
    if memory_confidence > 8/10 ∧ complexity = "simple" then false else true
  else true

/-- The research-step loop of the planner (`step_num` starts at `n`). -/
def researchStepsFrom (n : Nat) : List String → List PlanStep
  | [] => []
  | t :: ts =>
    { step := n, agent := "ResearchAgent", action := "research",
      topic := some t,
      reason := "Retrieve information about " ++ t } ::
      researchStepsFrom (n + 1) ts

/-- The research steps (one per topic, numbered from 1). -/
def researchSteps (topics : List String) : List PlanStep :=
  researchStepsFrom 1 topics

/-- Model of `Coordinator._create_execution_plan`. -/
def create_execution_plan (query complexity : String) (memScores : List ℚ) :
    List PlanStep :=
  let query_lower := pyLower query
  if containsAnyKw query_lower memoryKeywordsPlan then [memoryPlanStep]
  else
    let research_topics := extract_research_topics query
    let research_steps :=
      if needsResearch complexity memScores then researchSteps research_topics
      else []
    let step_num := research_steps.length + 1
    if complexity = "medium" ∨ complexity = "complex" then
      let analysis_type := determine_analysis_type query
      research_steps ++
        [{ step := step_num, agent := "AnalysisAgent", action := "analyze",
           analysis_type := some analysis_type,
           reason := "Perform " ++ analysis_type ++
             " analysis on research results",
           depends_on := some (List.range' 1 (step_num - 1)) }]
    else research_steps

/-! ## Analysis agent (src/agents/analysis_agent.py)

The analysis result dict is a structure whose field defaults are exactly the
`analysis.get(key, default)` fallbacks used by its readers, so a field left
at its default models an absent dict key. -/

/-- One entry of the `comparisons` list of `_compare_data`. -/
structure Comparison where
  approach : String
  description : String
  analysis : String
deriving DecidableEq, Repr

/-- One entry of the `tradeoffs` list of `_analyze_tradeoffs`. -/
structure TradeoffItem where
  approach : String
  advantages : List String
  disadvantages : List String
  summary : String
deriving DecidableEq, Repr

/-- One entry of the `methodologies` list of `_analyze_methodology`. -/
structure MethodologyItem where
  topic : String
  methods_identified : List String
  description : String
deriving DecidableEq, Repr

/-- One entry of the `challenges_by_area` list of `_identify_challenges`. -/
structure AreaChallenges where
  area : String
  challenges : List String
deriving DecidableEq, Repr

/-- One entry of the `insights` list of `_general_analysis`. -/
structure Insight where
  topic : String
  insight : String
  confidence : ℚ
deriving DecidableEq, Repr

/-- An analysis result dict.  `comparison` is `Option` so that its presence
in the insufficient-data result is expressible; every other field's default
is the reader-side `.get` default. -/
structure AnalysisOut where
  type : String := ""
  comparison : Option String := none
  confidence : ℚ := 0
  items_compared : Nat := 0
  comparisons : List Comparison := []
  recommendation : String := ""
  key_points : List String := []
  synthesis : String := ""
  sources_consulted : List String := []
  tradeoffs : List TradeoffItem := []
  overall_conclusion : String := ""
  methodologies : List MethodologyItem := []
  common_approaches : List String := []
  challenges_by_area : List AreaChallenges := []
  common_challenges : List String := []
  insights : List Insight := []
  summary : String := ""
deriving DecidableEq, Repr

/-- Model of `AnalysisAgent._generate_recommendation`: Python `max(data, key=...)`
keeps the first element whose confidence no later element strictly
exceeds. -/
def generate_recommendation (data : List ResearchRecord) : String :=
  match data with
  | [] => "Insufficient data for recommendation"
  | d :: ds =>
    let best_item := ds.foldl
      (fun b x => if x.confidence > b.confidence then x else b) d
    "Based on the analysis, " ++ best_item.topic ++
      " appears most suitable due to its strong foundation and proven effectiveness in the domain."

/-- Model of `AnalysisAgent._compare_data`: fewer than two records yields the
fixed insufficient-data dict with confidence 0.3 and no other keys. -/
def compare_data (data : List ResearchRecord) : AnalysisOut :=
  if data.length < 2 then
    { comparison := some "Insufficient data for comparison",
      confidence := 3/10 }
  else
    { type := "comparison",
      items_compared := data.length,
      comparisons := data.map (fun item =>
        ⟨item.topic, item.summary, item.details⟩),
      recommendation := generate_recommendation data,
      confidence := 85/100 }

/-- Model of `AnalysisAgent._synthesize_data`. -/
def synthesize_data (data : List ResearchRecord) : AnalysisOut :=
  let key_points := data.map (fun item => item.topic ++ ": " ++ item.summary)
  let sources := data.foldl
    (fun acc item => if item.source ∈ acc then acc else acc ++ [item.source])
    []
  { type := "synthesis",
    key_points := key_points,
    synthesis := String.intercalate " " key_points,
    sources_consulted := sources,
    confidence := 82/100 }

/-- The trade-off extraction for one record inside `_analyze_tradeoffs`.
`none` models the uncaught `IndexError` raised when `"but"` occurs in the
lowercased trade-off text but not literally (so `split("but")` yields a
single part and `pros_cons[1]` is out of range). -/
def tradeoffOfItem (item : ResearchRecord) : Option TradeoffItem :=
  let details_lower := pyLower item.details
  let base : Option (List String × List String) :=
    if strContainsPy details_lower "trade-off" ∨
        strContainsPy details_lower "trade-offs" then
      let parts := item.details.splitOn "Trade-offs:"
      if parts.length > 1 then
        let tradeoff_text := parts.getD 1 ""
        if strContainsPy (pyLower tradeoff_text) "but" then
          match tradeoff_text.splitOn "but" with
          | a :: b :: _ => some ([a.trim], [b.trim])
          | _ => none
        else some ([], [tradeoff_text.trim])
      else some ([], [])
    else some ([], [])
  base.map (fun pair =>
    let advantages := pair.1 ++
      (if strContainsPy details_lower "excellent" ∨
          strContainsPy details_lower "good" then
        [item.topic ++ " shows strong performance in specific areas"]
      else [])
    let disadvantages := pair.2 ++
      (if strContainsPy details_lower "expensive" ∨
          strContainsPy details_lower "require" then
        [item.topic ++ " has resource requirements"]
      else [])
    { approach := item.topic,
      advantages :=
        if advantages ≠ [] then advantages else ["Specific strengths in domain"],
      disadvantages :=
        if disadvantages ≠ [] then disadvantages else ["Resource considerations"],
      summary := item.summary })

/-- Model of `AnalysisAgent._conclude_tradeoffs`. -/
def conclude_tradeoffs (tradeoffs : List TradeoffItem) : String :=
  "Analysis of " ++ toString tradeoffs.length ++
    " approaches reveals that each has specific strengths and limitations. Selection should be based on specific use case requirements and available resources."

/-- Model of `AnalysisAgent._analyze_tradeoffs`: `none` when any record raises (see
`tradeoffOfItem`). -/
def analyze_tradeoffs (data : List ResearchRecord) : Option AnalysisOut :=
  (data.mapM tradeoffOfItem).map (fun tradeoffs =>
    { type := "trade_off_analysis",
      tradeoffs := tradeoffs,
      overall_conclusion := conclude_tradeoffs tradeoffs,
      confidence := 80/100 })

/-- The fixed keyword list scanned by `_analyze_methodology`. -/
def methodKeywords : List String :=
  ["DQN", "PPO", "Q-Learning", "Policy Gradient",
   "LSTM", "GRU", "CNN", "RNN", "Transformer"]

/-- Occurrence counts in first-appearance order, the model of a Python
counting dict. -/
def countOccurrences (l : List String) : List (String × Nat) :=
  l.foldl (fun acc s =>
    if acc.any (fun p => p.1 = s) then
      acc.map (fun p => if p.1 = s then (p.1, p.2 + 1) else p)
    else acc ++ [(s, 1)]) []

/-- The `sorted(counts.items(), key=count, reverse=True)[:3]` pattern shared
by `_find_common_approaches` and `_find_common_challenges`. -/
def topThreeByCount (l : List String) (fallback : String) : List String :=
  let common := (sortByDesc Prod.snd (countOccurrences l)).take 3
  if common ≠ [] then common.map Prod.fst else [fallback]

/-- Model of `AnalysisAgent._analyze_methodology`. -/
def analyze_methodology (data : List ResearchRecord) : AnalysisOut :=
  let methodologies := data.map (fun item =>
    let details_lower := pyLower item.details
    let methods :=
      if strContainsPy details_lower "methods" ∨
          strContainsPy details_lower "algorithms" then
        methodKeywords.filter (fun kw => strContainsPy details_lower (pyLower kw))
      else []
    ({ topic := item.topic,
       methods_identified :=
         if methods ≠ [] then methods else ["Domain-specific approaches"],
       description := item.summary } : MethodologyItem))
  { type := "methodology_analysis",
    methodologies := methodologies,
    common_approaches :=
      topThreeByCount (methodologies.map (fun m => m.methods_identified)).flatten
        "Various domain-specific methods",
    confidence := 78/100 }

/-- Model of `AnalysisAgent._identify_challenges`. -/
def identify_challenges (data : List ResearchRecord) : AnalysisOut :=
  let all_challenges := data.map (fun item =>
    let details_lower := pyLower item.details
    let challenges :=
      if strContainsPy details_lower "challenge" then
        let parts := item.details.splitOn "Challenges"
        if parts.length > 1 then
          let challenge_text := parts.getD 1 ""
          if strContainsPy (pyLower challenge_text) "include" then
            let challenge_parts := challenge_text.splitOn "include"
            if challenge_parts.length > 1 then
              ((challenge_parts.getD 1 "").splitOn ",").take 3 |>.map
                (fun c => rstripDots c.trim)
            else []
          else []
        else []
      else []
    let challenges :=
      if challenges = [] then
        (if strContainsPy details_lower "data" then
          ["Data requirements and availability"] else []) ++
        (if strContainsPy details_lower "computational" ∨
            strContainsPy details_lower "compute" then
          ["Computational resource requirements"] else []) ++
        (if strContainsPy details_lower "complex" then
          ["System complexity and implementation"] else [])
      else challenges
    ({ area := item.topic,
       challenges :=
         if challenges ≠ [] then challenges else ["Implementation considerations"]
     } : AreaChallenges))
  { type := "challenge_identification",
    challenges_by_area := all_challenges,
    common_challenges :=
      topThreeByCount (all_challenges.map (fun a => a.challenges)).flatten
        "Implementation and resource considerations",
    confidence := 83/100 }

/-- Model of `AnalysisAgent._general_analysis`. -/
def general_analysis (data : List ResearchRecord) : AnalysisOut :=
  { type := "general_analysis",
    insights := data.map (fun item =>
      ⟨item.topic, item.summary, item.confidence⟩),
    summary := "Analyzed " ++ toString data.length ++ " information sources",
    confidence := 80/100 }

/-- Model of `AnalysisAgent._analyze` dispatch; `none` models an uncaught exception
(possible only on the trade-offs path). -/
def analyze (data : List ResearchRecord) (analysis_type : String) :
    Option AnalysisOut :=
  if analysis_type = "comparison" then some (compare_data data)
  else if analysis_type = "synthesis" then some (synthesize_data data)
  else if analysis_type = "trade_offs" then analyze_tradeoffs data
  else if analysis_type = "methodology" then some (analyze_methodology data)
  else if analysis_type = "challenges" then some (identify_challenges data)
  else some (general_analysis data)

/-! ## Research agent (src/agents/research_agent.py, src/memory/knowledge_base.py) -/

/-- An entry of the static `KNOWLEDGE_DB` table. -/
structure KnowledgeEntry where
  summary : String
  details : String
  source : String
  confidence : ℚ
deriving DecidableEq, Repr

/-- Model of `KNOWLEDGE_DB`, in dict insertion order. -/
def KNOWLEDGE_DB : List (String × KnowledgeEntry) :=
  [("neural networks",
    ⟨"Neural networks are computing systems inspired by biological neural networks. They consist of interconnected nodes (neurons) organized in layers.",
     "Main types include: Feedforward Neural Networks (FNN) for basic pattern recognition, Convolutional Neural Networks (CNN) for image processing, Recurrent Neural Networks (RNN) for sequential data, and Transformers for natural language processing.",
     "AI Research Database", 95/100⟩),
   ("transformers",
    ⟨"Transformers are a type of neural network architecture that uses self-attention mechanisms to process sequential data in parallel, rather than sequentially.",
     "Key components include multi-head attention layers, positional encodings, and feed-forward networks. Trade-offs: excellent performance on NLP tasks but computationally expensive and require large amounts of training data. Examples include BERT, GPT, and T5.",
     "NLP Research Papers", 92/100⟩),
   ("transformer architecture",
    ⟨"Transformer architecture revolutionized NLP by introducing self-attention mechanisms that allow the model to weigh the importance of different words in a sequence.",
     "Architecture consists of encoder and decoder stacks. Each layer has multi-head self-attention and position-wise feed-forward networks. Computational efficiency trade-off: parallel processing enables faster training but requires more memory and compute resources than RNNs.",
     "Deep Learning Research", 90/100⟩),
   ("reinforcement learning",
    ⟨"Reinforcement learning is a machine learning paradigm where agents learn to make decisions by interacting with an environment and receiving rewards or penalties.",
     "Key concepts include states, actions, rewards, and policies. Recent methods include Deep Q-Networks (DQN), Policy Gradients, Actor-Critic methods, and Proximal Policy Optimization (PPO). Challenges include sample efficiency, exploration vs exploitation trade-off, and credit assignment problem.",
     "RL Research Database", 88/100⟩),
   ("machine learning",
    ⟨"Machine learning enables computers to learn from data without being explicitly programmed. It includes supervised, unsupervised, and reinforcement learning approaches.",
     "Supervised learning uses labeled data for classification and regression. Unsupervised learning finds patterns in unlabeled data through clustering and dimensionality reduction. Common algorithms include decision trees, SVMs, k-means, and neural networks.",
     "ML Textbooks", 93/100⟩),
   ("convolutional neural networks",
    ⟨"CNNs are specialized neural networks designed for processing grid-like data such as images. They use convolutional layers to automatically learn spatial hierarchies of features.",
     "Key components include convolutional layers, pooling layers, and fully connected layers. Trade-offs: excellent for image tasks but require large datasets and significant computational resources. Applications include image classification, object detection, and image segmentation.",
     "Computer Vision Research", 91/100⟩),
   ("recurrent neural networks",
    ⟨"RNNs are neural networks designed for sequential data by maintaining hidden states that capture information about previous inputs.",
     "Variants include LSTM (Long Short-Term Memory) and GRU (Gated Recurrent Unit) which solve the vanishing gradient problem. Trade-offs: good for sequential data but slower to train than Transformers and can struggle with long-range dependencies.",
     "Sequence Modeling Research", 89/100⟩),
   ("deep learning",
    ⟨"Deep learning is a subset of machine learning using neural networks with multiple layers to learn hierarchical representations of data.",
     "Enabled by increased computational power (GPUs), large datasets, and improved training techniques. Applications span computer vision, NLP, speech recognition, and game playing. Challenges include interpretability, data requirements, and computational cost.",
     "Deep Learning Literature", 94/100⟩)]

/-- Model of `ResearchAgent._research`: direct/partial topic matches, a broader
word-overlap pass when none, and the general machine-learning fallback when
still empty. -/
def research (query : String) : List ResearchRecord :=
  let query_lower := pyLower query
  let matched_topics := KNOWLEDGE_DB.filterMap (fun e =>
    if strContainsPy query_lower e.1 ∨
        (pyWords query_lower).any (fun word => strContainsPy e.1 word) then
      some e.1
    else none)
  let matched_topics :=
    if matched_topics = [] then
      let query_words := (pyWords query_lower).dedup
      KNOWLEDGE_DB.filterMap (fun e =>
        if query_words.any (fun w => w ∈ (pyWords e.1).dedup) then some e.1
        else none)
    else matched_topics
  let results := matched_topics.filterMap (fun topic =>
    (KNOWLEDGE_DB.find? (fun e => e.1 = topic)).map (fun e =>
      ({ topic := topic, summary := e.2.summary, details := e.2.details,
         source := e.2.source, confidence := e.2.confidence } : ResearchRecord)))
  if results = [] then
    match KNOWLEDGE_DB.find? (fun e => e.1 = "machine learning") with
    | some e =>
      [{ topic := "machine learning (general)",
         summary := "General machine learning information as fallback.",
         details := e.2.summary, source := e.2.source, confidence := 6/10 }]
    | none => []
  else results

/-! ## Coordinator: execution, synthesis, storage (src/agents/coordinator.py) -/

/-- The payload dict a worker agent's `process_message` hands back, as the
coordinator stores it into an execution result. -/
inductive ExecPayload where
  | researchP (results : List ResearchRecord) (status : String)
  | analysisP (analysis : AnalysisOut) (status : String)
  | memoryP (memories : List MemRecord) (count : Nat) (status : String)
deriving DecidableEq, Repr

/-- Model of `result.get("results", [])`. -/
def ExecPayload.resultsOf : ExecPayload → List ResearchRecord
  | .researchP rs _ => rs
  | _ => []

/-- Model of `result.get("analysis", {})`. -/
def ExecPayload.analysisOf : ExecPayload → AnalysisOut
  | .analysisP a _ => a
  | _ => {}

/-- Model of `result.get("result", {}).get("memories", [])`. -/
def ExecPayload.memoriesOf : ExecPayload → List MemRecord
  | .memoryP m _ _ => m
  | _ => []

/-- One entry of the list returned by `Coordinator._execute_plan`. -/
structure ExecResult where
  agent : String
  action : String
  payload : ExecPayload
deriving DecidableEq, Repr

/-- Model of `Coordinator._call_research_agent` composed with
`ResearchAgent.process_message`: the research payload (`_research` raises no
exception, so the `except` fallback is dead). -/
def call_research_agent (topic : String) : ExecPayload :=
  let results := research topic
  .researchP results (if results = [] then "no_results" else "completed")

/-- Model of `Coordinator._call_analysis_agent` composed with
`AnalysisAgent.process_message`: an exception inside `_analyze` (see
`analyze`) is caught and replaced by the degraded
`{"analysis": {"type": "error"}, "status": "error"}` payload. -/
def call_analysis_agent (rdata : List ResearchRecord)
    (analysis_type : String) : ExecPayload :=
  match analyze rdata analysis_type with
  | some a => .analysisP a "completed"
  | none => .analysisP { type := "error" } "error"

/-- Model of `Coordinator._call_memory_agent` composed with the memory agent's
retrieve operation (which raises no exception). -/
def call_memory_agent (st : MemoryState V) (action : String) : ExecPayload :=
  let memories :=
    if action = "retrieve_conversation" then retrieve_memory st "conversation" 10
    else retrieve_memory st "all" 5
  .memoryP memories memories.length "retrieved"

/-- The loop body of `Coordinator._execute_plan`, carrying the accumulated
`research_data`. -/
def execute_plan_aux (st : MemoryState V) :
    List PlanStep → List ResearchRecord → List ExecResult
  | [], _ => []
  | step :: rest, rdata =>
    if step.agent = "ResearchAgent" then
      let payload := call_research_agent (step.topic.getD "")
      ⟨"ResearchAgent", step.action, payload⟩ ::
        execute_plan_aux st rest (rdata ++ payload.resultsOf)
    else if step.agent = "AnalysisAgent" then
      ⟨"AnalysisAgent", step.action,
        call_analysis_agent rdata (step.analysis_type.getD "general")⟩ ::
        execute_plan_aux st rest rdata
    else if step.agent = "MemoryAgent" then
      ⟨"MemoryAgent", step.action, call_memory_agent st step.action⟩ ::
        execute_plan_aux st rest rdata
    else execute_plan_aux st rest rdata

/-- Model of `Coordinator._execute_plan`. -/
def execute_plan (st : MemoryState V) (plan : List PlanStep) :
    List ExecResult :=
  execute_plan_aux st plan []

/-- Python `enumerate(l, n)`. -/
def enumFrom (n : Nat) (l : List α) : List (Nat × α) :=
  ((List.range l.length).map (fun i => i + n)).zip l

/-- The apology emitted when nothing at all was collected. -/
def insufficientInfoResponse : String :=
  "I don't have enough information to provide a comprehensive answer to your query."

/-- The memory-only branch of `_synthesize_response`. -/
def synthesizeMemoryOnly (er : ExecResult) : String :=
  let memories := er.payload.memoriesOf
  let response_parts :=
    if memories ≠ [] then
      "Based on our previous conversation:\n" ::
        (enumFrom 1 (memories.take 3)).flatMap (fun p =>
          let topic := p.2.metadata.topic.getD ""
          (if topic ≠ "" then
            ["\n" ++ toString p.1 ++ ". Regarding " ++ topic ++ ":"]
          else []) ++
          ["   " ++ p.2.content.take 200])
    else ["I don't have any relevant information from our previous conversations."]
  String.intercalate "\n" response_parts

/-- The rendering of one analysis dict inside `_synthesize_response`. -/
def renderAnalysis (analysis : AnalysisOut) : List String :=
  ("\n\nAnalysis (" ++ analysis.type ++ "):") ::
  (if analysis.type = "comparison" then
    analysis.comparisons.map (fun comp =>
      "\n- " ++ comp.approach ++ ": " ++ comp.description) ++
    (if analysis.recommendation ≠ "" then
      ["\nRecommendation: " ++ analysis.recommendation]
    else [])
  else if analysis.type = "trade_off_analysis" then
    analysis.tradeoffs.flatMap (fun t =>
      ["\n- " ++ t.approach ++ ":",
       "  Advantages: " ++ String.intercalate ", " t.advantages,
       "  Disadvantages: " ++ String.intercalate ", " t.disadvantages])
  else if analysis.type = "challenge_identification" then
    analysis.challenges_by_area.map (fun ac =>
      "\n- " ++ ac.area ++ ": " ++ String.intercalate ", " ac.challenges) ++
    (if analysis.common_challenges ≠ [] then
      ["\nCommon challenges: " ++
        String.intercalate ", " analysis.common_challenges]
    else [])
  else
    if analysis.summary ≠ "" then ["\n" ++ analysis.summary] else [])

/-- The general branch of `_synthesize_response`. -/
def synthesizeGeneral (execution_results : List ExecResult)
    (memory_count : Nat) : String :=
  let research_results := execution_results.flatMap (fun er =>
    if er.agent = "ResearchAgent" then er.payload.resultsOf else [])
  let analysis_results := execution_results.filterMap (fun er =>
    if er.agent = "AnalysisAgent" then some er.payload.analysisOf else none)
  let response_parts :=
    (if research_results ≠ [] then
      (if memory_count > 0 then
        ["Building on our previous discussion and new research:\n"]
      else []) ++
      (enumFrom 1 research_results).flatMap (fun p =>
        ["\n" ++ toString p.1 ++ ". " ++ titlePy p.2.topic ++ ":",
         "   " ++ p.2.summary] ++
        (if p.2.details ≠ "" ∧ p.2.details ≠ p.2.summary then
          ["   " ++ p.2.details]
        else []))
    else []) ++
    analysis_results.flatMap renderAnalysis
  let response_parts :=
    if response_parts = [] then [insufficientInfoResponse] else response_parts
  String.intercalate "\n" response_parts

/-- Model of `Coordinator._synthesize_response`. -/
def synthesize_response (execution_results : List ExecResult)
    (memory_count : Nat) : String :=
  match execution_results with
  | [er] =>
    if er.agent = "MemoryAgent" then synthesizeMemoryOnly er
    else synthesizeGeneral execution_results memory_count
  | _ => synthesizeGeneral execution_results memory_count

/-- Model of `Coordinator._store_interaction`: one conversation record for the
response, then one knowledge record per research result. -/
def store_interaction (embed : String → V) (st : MemoryState V)
    (query response complexity : String)
    (execution_results : List ExecResult) (now : Nat) : MemoryState V :=
  let st1 := (store_memory embed st "conversation" response
    { complexity := some complexity, query := some query,
      agent := some "Coordinator" } now).2
  execution_results.foldl (fun acc er =>
    if er.agent = "ResearchAgent" then
      er.payload.resultsOf.foldl (fun acc2 r =>
        (store_memory embed acc2 "knowledge" r.summary
          { topic := some r.topic, source := some r.source,
            confidence := some r.confidence,
            agent := some "ResearchAgent" } now).2) acc
    else acc) st1

/-- Model of `Coordinator.process_query`: classify, memory check, plan, execute,
synthesize, store; returns the response and the next memory state.
`vecSearch` supplies the value of `self.vector_store.search(query, top_k)`
for the current index contents (the similarity backend boundary), `embed`
the vectorization used by `store`.  The source returns the response
normally on every path; no exception escapes this function. -/
def process_query (embed : String → V)
    (vecSearch : List (String × V) → String → Nat → List (String × ℚ))
    (st : MemoryState V) (query : String) (now : Nat) :
    String × MemoryState V :=
  let complexity := analyze_complexity query
  let memResults := search_memory st (vecSearch st.vsEntries query 5) query
    "hybrid" 5
  let plan := create_execution_plan query complexity
    (memResults.map (fun r => r.score))
  let execution_results := execute_plan st plan
  let response := synthesize_response execution_results memResults.length
  (response,
   store_interaction embed st query response complexity execution_results now)

/-! ## Auxiliary definitions for the claims -/

/-- Retrieval over the conversation log as the spec words it (for claim C2):
collect ALL matching records, stable-sort descending by timestamp, then
truncate — without the source's pre-truncation of the conversation log to its
last `limit` entries. -/
def specRetrieveConversation (st : MemoryState V) (limit : Nat) :
    List MemRecord :=
  (sortByDesc (fun m => m.timestamp) st.conversation).take limit

/-- Is the category one of the three the store dispatches on? -/
def validCategory (c : String) : Bool :=
  c == "conversation" || c == "knowledge" || c == "agent_state"

/-- One store request (the payload of a `store` operation plus the
`datetime.now()` instant of the call). -/
structure StoreReq where
  memory_type : String
  content : String
  metadata : Metadata
  now : Nat
deriving DecidableEq

/-- Run a sequence of store requests against a memory state. -/
def runStores (embed : String → V) (st : MemoryState V) :
    List StoreReq → MemoryState V
  | [] => st
  | r :: rest =>
    runStores embed
      (store_memory embed st r.memory_type r.content r.metadata r.now).2 rest

/-- Total number of records held across the three category logs. -/
def totalLogRecords (st : MemoryState V) : Nat :=
  st.conversation.length +
    ((st.knowledge.map (fun p => p.2.length)).sum +
      (st.agentState.map (fun p => p.2.length)).sum)

/-- The similarity-index size (`VectorStore.size`, i.e. `index.ntotal`). -/
def vectorStoreSize (st : MemoryState V) : Nat :=
  st.vsEntries.length

/-- A concrete stand-in for the unseeded Python string hash (first character
code), used to instantiate the vector-store claims. -/
def charHash (w : String) : Nat :=
  (w.toList.headD 'a').toNat

/-- Two equal-timestamp conversation records (C2 instance). -/
def c2recA : MemRecord :=
  ⟨"mem_0", "conversation", "first", {}, 5⟩

/-- Second record of the C2 instance. -/
def c2recB : MemRecord :=
  ⟨"mem_1", "conversation", "second", {}, 5⟩

/-- The C2 instance state: two conversation records sharing one timestamp. -/
def c2state : MemoryState Unit :=
  ⟨[], [c2recA, c2recB], [], [], 2⟩

/-- A knowledge record for the C7 witness. -/
def c7recA : MemRecord :=
  ⟨"mem_0", "knowledge", "alpha beta", { topic := some "greek" }, 1⟩

/-- Second knowledge record for the C7 witness. -/
def c7recB : MemRecord :=
  ⟨"mem_1", "knowledge", "gamma delta", { topic := some "greek" }, 2⟩

/-- The C7 witness state. -/
def c7state : MemoryState Unit :=
  ⟨[], [], [("greek", [c7recA, c7recB])], [], 2⟩

/-- A concrete research record for the C9 witness. -/
def c9record : ResearchRecord :=
  { topic := "t", summary := "s", details := "d", source := "src",
    confidence := 9/10 }

/-- The store of the C4 instance: dimension 2, one entry obtained by adding
the text `"a"` under the concrete hash `charHash`. -/
noncomputable def c4store : VectorStore :=
  (VectorStore.mk 2 []).add charHash "mem_0" "a"

/-! ## General lemmas about the stable sort model -/

theorem sortByDesc_sorted {β : Type} [LinearOrder β] (f : α → β) (l : List α) :
    (sortByDesc f l).Sorted (fun a b => f b ≤ f a) := by
  haveI : IsTotal α (fun a b => f b ≤ f a) := ⟨fun a b => le_total (f b) (f a)⟩
  haveI : IsTrans α (fun a b => f b ≤ f a) :=
    ⟨fun _ _ _ hab hbc => le_trans hbc hab⟩
  exact List.sorted_insertionSort _ l

theorem sortByDesc_perm {β : Type} [LinearOrder β] (f : α → β) (l : List α) :
    (sortByDesc f l).Perm l :=
  List.perm_insertionSort _ l

theorem sortByAsc_sorted {β : Type} [LinearOrder β] (f : α → β) (l : List α) :
    (sortByAsc f l).Sorted (fun a b => f a ≤ f b) := by
  haveI : IsTotal α (fun a b => f a ≤ f b) := ⟨fun a b => le_total (f a) (f b)⟩
  haveI : IsTrans α (fun a b => f a ≤ f b) :=
    ⟨fun _ _ _ hab hbc => le_trans hab hbc⟩
  exact List.sorted_insertionSort _ l

theorem sortByAsc_perm {β : Type} [LinearOrder β] (f : α → β) (l : List α) :
    (sortByAsc f l).Perm l :=
  List.perm_insertionSort _ l

/-- Stability of the descending sort: a predicate that only selects elements
of one key class is preserved verbatim, i.e. the sort never reorders elements
with equal keys. -/
theorem sortByDesc_filter_stable {β : Type} [LinearOrder β] (f : α → β)
    (l : List α) (p : α → Bool)
    (hp : ∀ a b, p a = true → p b = true → f a = f b) :
    (sortByDesc f l).filter p = l.filter p := by
  set r : α → α → Prop := fun a b => f b ≤ f a with hr
  have hpair : (l.filter p).Pairwise r := by
    apply List.Pairwise.imp_of_mem (R := fun _ _ => True)
    · intro a b ha hb _
      have hpa := List.of_mem_filter ha
      have hpb := List.of_mem_filter hb
      simp [hr, hp a b hpa hpb]
    · exact List.pairwise_of_forall_mem_list (fun _ _ _ _ => trivial)
  have hsub : List.Sublist (l.filter p) (l.insertionSort r) := by
    exact List.sublist_insertionSort hpair (List.filter_sublist l)
  have hsub2 : List.Sublist ((l.filter p).filter p)
      ((l.insertionSort r).filter p) :=
    List.Sublist.filter p hsub
  have hff : (l.filter p).filter p = l.filter p := by
    simp [List.filter_filter]
  rw [hff] at hsub2
  have hperm : List.Perm ((l.insertionSort r).filter p) (l.filter p) :=
    (List.perm_insertionSort r l).filter p
  have hlen : (l.filter p).length = ((l.insertionSort r).filter p).length :=
    (hperm.length_eq).symm
  exact (hsub2.eq_of_length hlen).symm

/-- Filtering a `take` yields the front part of filtering the whole list. -/
theorem filter_take_append (l : List α) (p : α → Bool) (n : Nat) :
    l.filter p = (l.take n).filter p ++ (l.drop n).filter p := by
  conv_lhs => rw [← List.take_append_drop n l]
  rw [List.filter_append]

/-! ## Claim C6: complexity classification priority order -/

/-- C6: `classify(query)` follows the exact first-match-wins priority order:
any memory-reference keyword gives `simple`; else any complex-intent keyword
gives `complex`; else any medium-intent keyword gives `medium`; else more
than one question mark or more than two commas gives `complex`; otherwise
`simple`. -/
theorem c6_complexity_priority (query : String) :
    (containsAnyKw (pyLower query) memoryKeywordsClassify = true →
      analyze_complexity query = "simple") ∧
    (containsAnyKw (pyLower query) memoryKeywordsClassify = false →
      containsAnyKw (pyLower query) complexKeywords = true →
      analyze_complexity query = "complex") ∧
    (containsAnyKw (pyLower query) memoryKeywordsClassify = false →
      containsAnyKw (pyLower query) complexKeywords = false →
      containsAnyKw (pyLower query) mediumKeywords = true →
      analyze_complexity query = "medium") ∧
    (containsAnyKw (pyLower query) memoryKeywordsClassify = false →
      containsAnyKw (pyLower query) complexKeywords = false →
      containsAnyKw (pyLower query) mediumKeywords = false →
      (query.toList.count '?' > 1 ∨ query.toList.count ',' > 2) →
      analyze_complexity query = "complex") ∧
    (containsAnyKw (pyLower query) memoryKeywordsClassify = false →
      containsAnyKw (pyLower query) complexKeywords = false →
      containsAnyKw (pyLower query) mediumKeywords = false →
      ¬ (query.toList.count '?' > 1 ∨ query.toList.count ',' > 2) →
      analyze_complexity query = "simple") := by
  refine ⟨?_, ?_, ?_, ?_, ?_⟩
  · intro h1
    simp [analyze_complexity, h1]
  · intro h1 h2
    simp [analyze_complexity, h1, h2]
  · intro h1 h2 h3
    simp [analyze_complexity, h1, h2, h3]
  · intro h1 h2 h3 h4
    simp only [String.toList] at h4
    simp [analyze_complexity, h1, h2, h3]
    omega
  · intro h1 h2 h3 h4
    simp only [String.toList] at h4
    push_neg at h4
    simp [analyze_complexity, h1, h2, h3]
    omega

/-- Witness for C6 at a concrete query: `"compare cats and dogs"` matches a
complex-intent keyword and no memory keyword, hence classifies `complex`. -/
theorem c6_witness : analyze_complexity "compare cats and dogs" = "complex" :=
  (c6_complexity_priority "compare cats and dogs").2.1 (by decide) (by decide)

/-! ## Claim C1: memory short-circuit in the planner -/

/-- C1 counterexample: the query `"said"` contains the memory-reference
keyword `"said"` of the classifier's list, yet the execution plan's single
step targets `ResearchAgent`, not the memory collaborator — the planner's
own keyword list (`memoryKeywordsPlan`) omits `"mentioned"` and `"said"`. -/
theorem c1_counterexample :
    containsAnyKw (pyLower "said") memoryKeywordsClassify = true ∧
    analyze_complexity "said" = "simple" ∧
    (create_execution_plan "said" (analyze_complexity "said") []).map
      (fun s => s.agent) = ["ResearchAgent"] := by decide

/-- C1 (amended): for every query containing one of the planner's five
memory-reference keywords (`"earlier"`, `"previous"`, `"before"`,
`"discussed"`, `"we talked"` — not `"mentioned"`/`"said"`), the plan is
exactly the single step targeting `MemoryAgent` with the
`retrieve_conversation` action, for every complexity and memory result. -/
theorem c1_plan_short_circuit (query complexity : String)
    (memScores : List ℚ)
    (h : containsAnyKw (pyLower query) memoryKeywordsPlan = true) :
    create_execution_plan query complexity memScores =
      [{ step := 1, agent := "MemoryAgent", action := "retrieve_conversation",
         reason := "Query asks about previous conversation" }] := by
  simp only [create_execution_plan, h]
  rfl

/-- Witness for C1 at a concrete query containing `"discussed"`. -/
theorem c1_witness :
    containsAnyKw (pyLower "tell me what we discussed")
      memoryKeywordsPlan = true ∧
    create_execution_plan "tell me what we discussed" "complex" [1/2] =
      [{ step := 1, agent := "MemoryAgent", action := "retrieve_conversation",
         reason := "Query asks about previous conversation" }] :=
  ⟨by decide, c1_plan_short_circuit _ _ _ (by decide)⟩

/-! ## Claim C8: when research steps are omitted -/

/-- C8 counterexample: for the non-memory query `"cat"` with empty memory
results and `simple` complexity, none of the three skip conditions holds
(the memory result set is empty), yet the plan contains no research step at
all — topic extraction produced nothing, so the planner emits an empty
plan. -/
theorem c8_counterexample :
    analyze_complexity "cat" = "simple" ∧
    containsAnyKw (pyLower "cat") memoryKeywordsPlan = false ∧
    ([] : List ℚ).length = 0 ∧
    create_execution_plan "cat" "simple" [] = [] := by decide

/-- C8 (amended): for a query without a planner memory keyword, the plan
contains a research step if and only if topic extraction is non-empty and
`needsResearch` holds, i.e. research is skipped exactly when the
three-condition memory-confidence rule fires or no research topic could be
extracted. -/
theorem c8_research_steps_iff (query complexity : String)
    (memScores : List ℚ)
    (h : containsAnyKw (pyLower query) memoryKeywordsPlan = false) :
    ((create_execution_plan query complexity memScores).any
        (fun s => s.agent = "ResearchAgent") = true) ↔
      (extract_research_topics query ≠ [] ∧
        needsResearch complexity memScores = true) := by
  have hsteps : ∀ (n : Nat) (ts : List String),
      (researchStepsFrom n ts).any (fun s => s.agent = "ResearchAgent") =
        decide (ts ≠ []) := by
    intro n ts
    cases ts with
    | nil => simp [researchStepsFrom]
    | cons a as => simp [researchStepsFrom]
  simp only [create_execution_plan, h, Bool.false_eq_true, if_false,
    researchSteps]
  cases hnr : needsResearch complexity memScores with
  | false =>
    by_cases hc : complexity = "medium" ∨ complexity = "complex" <;>
      simp [hc]
  | true =>
    by_cases hc : complexity = "medium" ∨ complexity = "complex"
    · simp [hc, List.any_append, hsteps]
    · simp [hc, hsteps]

/-- Witness for C8: `"python"` is a non-memory query with an extractable
topic and empty memory results, so its plan contains a research step. -/
theorem c8_witness :
    (create_execution_plan "python" "simple" []).any
      (fun s => s.agent = "ResearchAgent") = true :=
  (c8_research_steps_iff "python" "simple" [] (by decide)).mpr
    ⟨by decide, by decide⟩

/-! ## Claim C9: comparison analysis with insufficient data -/

/-- C9: a comparison analysis over fewer than two research records completes
without error (the dispatch returns a value, never the exception marker) and
yields the fixed insufficient-data result with confidence exactly 0.3. -/
theorem c9_insufficient_comparison (data : List ResearchRecord)
    (h : data.length < 2) :
    analyze data "comparison" = some (compare_data data) ∧
    (compare_data data).confidence = 3/10 ∧
    (compare_data data).comparison = some "Insufficient data for comparison"
    := by
  refine ⟨by simp [analyze], ?_, ?_⟩ <;> simp [compare_data, if_pos h]

/-- Witness for C9 on a single research record. -/
theorem c9_witness :
    [c9record].length < 2 ∧ (compare_data [c9record]).confidence = 3/10 :=
  ⟨by decide, (c9_insufficient_comparison [c9record] (by decide)).2.1⟩

/-! ## Claim C3: store never fails -/

/-- C3 counterexample: a store with the malformed category `"bogus"`
returns the success status `"stored"` (the same status as every valid
store) — it does not signal `InvalidCategory` or any error at all. -/
theorem c3_counterexample :
    (store_memory (V := Unit) (fun _ => ()) (initMemoryState Unit) "bogus"
      "x" {} 0).1.status = "stored" ∧
    ¬ ("bogus" = "conversation" ∨ "bogus" = "knowledge" ∨
       "bogus" = "agent_state") := by decide

/-- C3 (amended): `store` NEVER errors, for any category: it always returns
status `"stored"` with the next monotonic id, increments the id counter,
indexes the searchable text, and appends the record to the matching
category's log — to none when the category is outside the three valid
ones. -/
theorem c3_store_never_fails (embed : String → V) (st : MemoryState V)
    (memory_type content : String) (metadata : Metadata) (now : Nat) :
    (store_memory embed st memory_type content metadata now).1 =
      ⟨mkMemId st.counter, "stored", memory_type⟩ ∧
    (store_memory embed st memory_type content metadata now).2.counter =
      st.counter + 1 ∧
    (store_memory embed st memory_type content metadata now).2.vsEntries =
      st.vsEntries ++
        [(mkMemId st.counter,
          embed (metadata.topic.getD "" ++ " " ++ content))] ∧
    (store_memory embed st memory_type content metadata now).2.conversation =
      (if memory_type = "conversation" then
        st.conversation ++
          [⟨mkMemId st.counter, memory_type, content, metadata, now⟩]
      else st.conversation) ∧
    (store_memory embed st memory_type content metadata now).2.knowledge =
      (if memory_type = "knowledge" then
        appendAt (metadata.topic.getD "general")
          ⟨mkMemId st.counter, memory_type, content, metadata, now⟩
          st.knowledge
      else st.knowledge) ∧
    (store_memory embed st memory_type content metadata now).2.agentState =
      (if memory_type = "agent_state" then
        appendAt (metadata.agent.getD "unknown")
          ⟨mkMemId st.counter, memory_type, content, metadata, now⟩
          st.agentState
      else st.agentState) :=
  ⟨rfl, rfl, rfl, rfl, rfl, rfl⟩

/-! ## Claim C2: retrieval order -/

/-- C2 counterexample: with two conversation records sharing one timestamp,
`retrieve("conversation", 1)` returns the SECOND-inserted record (the
source slices the conversation log to its last `limit` entries before
sorting), while the spec's collect-all-then-stable-sort-then-truncate
retrieval returns the first-inserted one. -/
theorem c2_counterexample :
    retrieve_memory c2state "conversation" 1 = [c2recB] ∧
    specRetrieveConversation c2state 1 = [c2recA] ∧
    c2recA ≠ c2recB := by decide

/-- C2 (amended): `retrieve` returns records sorted by non-increasing
timestamp, truncated to `limit`; ties are kept in the order of the
COLLECTED list — the last `limit` conversation records in insertion order,
then the knowledge records grouped by topic, then the agent-state records
grouped by agent (`collectMemories`) — of which the result's slice of any
one timestamp is the front part.  Insertion order is thus preserved within
a category group but not across categories, and conversation records older
than the last `limit` are never considered. -/
theorem c2_retrieve_sorted_stable (st : MemoryState V)
    (memory_type : String) (limit : Nat) (t : Nat) :
    (retrieve_memory st memory_type limit).Sorted
      (fun a b => b.timestamp ≤ a.timestamp) ∧
    (retrieve_memory st memory_type limit).length ≤ limit ∧
    ∃ rest,
      (collectMemories st memory_type limit).filter
          (fun m => m.timestamp == t) =
        (retrieve_memory st memory_type limit).filter
          (fun m => m.timestamp == t) ++ rest := by
  refine ⟨?_, ?_, ?_⟩
  · exact List.Pairwise.sublist (List.take_sublist _ _)
      (sortByDesc_sorted (fun m : MemRecord => m.timestamp)
        (collectMemories st memory_type limit))
  · simp [retrieve_memory]
  · refine ⟨((sortByDesc (fun m => m.timestamp)
      (collectMemories st memory_type limit)).drop limit).filter
        (fun m => m.timestamp == t), ?_⟩
    have hstable := sortByDesc_filter_stable (fun m => m.timestamp)
      (collectMemories st memory_type limit)
      (fun m => m.timestamp == t)
      (fun a b ha hb => by
        simp only [beq_iff_eq] at ha hb
        simp only [ha, hb])
    rw [← hstable, retrieve_memory]
    exact filter_take_append _ _ limit

/-! ## Claim C10: stores with an invalid category -/

theorem appendAt_length_sum (k : String) (r : MemRecord)
    (l : List (String × List MemRecord)) :
    ((appendAt k r l).map (fun p => p.2.length)).sum =
      (l.map (fun p => p.2.length)).sum + 1 := by
  induction l with
  | nil => simp [appendAt]
  | cons hd tl ih =>
    by_cases hk : hd.1 = k
    · simp [appendAt, hk]
      omega
    · simp [appendAt, hk, ih]
      omega

theorem store_totalLogRecords (embed : String → V) (st : MemoryState V)
    (memory_type content : String) (metadata : Metadata) (now : Nat) :
    totalLogRecords
        (store_memory embed st memory_type content metadata now).2 =
      totalLogRecords st +
        (if validCategory memory_type then 1 else 0) := by
  by_cases h1 : memory_type = "conversation"
  · simp [store_memory, totalLogRecords, validCategory, h1]
    omega
  · by_cases h2 : memory_type = "knowledge"
    · simp [store_memory, totalLogRecords, validCategory, h1, h2,
        appendAt_length_sum]
      omega
    · by_cases h3 : memory_type = "agent_state"
      · simp [store_memory, totalLogRecords, validCategory, h1, h2, h3,
          appendAt_length_sum]
        omega
      · simp [store_memory, totalLogRecords, validCategory, h1, h2, h3]

theorem store_vectorStoreSize (embed : String → V) (st : MemoryState V)
    (memory_type content : String) (metadata : Metadata) (now : Nat) :
    vectorStoreSize
        (store_memory embed st memory_type content metadata now).2 =
      vectorStoreSize st + 1 := by
  simp [store_memory, vectorStoreSize]

theorem runStores_sizes (embed : String → V) (reqs : List StoreReq) :
    ∀ st : MemoryState V,
      vectorStoreSize (runStores embed st reqs) =
        vectorStoreSize st + reqs.length ∧
      totalLogRecords (runStores embed st reqs) =
        totalLogRecords st +
          (reqs.filter (fun r => validCategory r.memory_type)).length := by
  induction reqs with
  | nil => intro st; simp [runStores]
  | cons r rest ih =>
    intro st
    have h1 := store_vectorStoreSize embed st r.memory_type r.content
      r.metadata r.now
    have h2 := store_totalLogRecords embed st r.memory_type r.content
      r.metadata r.now
    have h3 := ih (store_memory embed st r.memory_type r.content
      r.metadata r.now).2
    constructor
    · rw [runStores, h3.1, h1]
      simp
      omega
    · rw [runStores, h3.2, h2]
      by_cases hv : validCategory r.memory_type = true
      · simp [hv]
        omega
      · simp [hv]

/-- C10: after any store trace from the fresh state, a store call with a
category outside `{conversation, knowledge, agent_state}` still returns the
success status with the next monotonic id, increments the id counter, adds
the searchable text to the similarity index, and appends the record to NO
category log — so the similarity-index size afterwards strictly exceeds the
total number of records held in the three category logs. -/
theorem c10_invalid_category_store (embed : String → V)
    (reqs : List StoreReq) (memory_type content : String)
    (metadata : Metadata) (now : Nat)
    (h : validCategory memory_type = false) :
    (store_memory embed (runStores embed (initMemoryState V) reqs)
        memory_type content metadata now).1 =
      ⟨mkMemId (runStores embed (initMemoryState V) reqs).counter, "stored",
        memory_type⟩ ∧
    (store_memory embed (runStores embed (initMemoryState V) reqs)
        memory_type content metadata now).2.counter =
      (runStores embed (initMemoryState V) reqs).counter + 1 ∧
    (store_memory embed (runStores embed (initMemoryState V) reqs)
        memory_type content metadata now).2.vsEntries =
      (runStores embed (initMemoryState V) reqs).vsEntries ++
        [(mkMemId (runStores embed (initMemoryState V) reqs).counter,
          embed (metadata.topic.getD "" ++ " " ++ content))] ∧
    (store_memory embed (runStores embed (initMemoryState V) reqs)
        memory_type content metadata now).2.conversation =
      (runStores embed (initMemoryState V) reqs).conversation ∧
    (store_memory embed (runStores embed (initMemoryState V) reqs)
        memory_type content metadata now).2.knowledge =
      (runStores embed (initMemoryState V) reqs).knowledge ∧
    (store_memory embed (runStores embed (initMemoryState V) reqs)
        memory_type content metadata now).2.agentState =
      (runStores embed (initMemoryState V) reqs).agentState ∧
    totalLogRecords
        (store_memory embed (runStores embed (initMemoryState V) reqs)
          memory_type content metadata now).2 <
      vectorStoreSize
        (store_memory embed (runStores embed (initMemoryState V) reqs)
          memory_type content metadata now).2 := by
  have hval := h
  simp only [validCategory, Bool.or_eq_false_iff, beq_eq_false_iff_ne,
    ne_eq] at hval
  obtain ⟨⟨h1, h2⟩, h3⟩ := hval
  have hsz := runStores_sizes embed reqs (initMemoryState V)
  refine ⟨rfl, rfl, rfl, ?_, ?_, ?_, ?_⟩
  · simp [store_memory, h1]
  · simp [store_memory, h2]
  · simp [store_memory, h3]
  · rw [store_totalLogRecords, store_vectorStoreSize, h]
    have hfl : (reqs.filter (fun r => validCategory r.memory_type)).length ≤
        reqs.length := List.length_filter_le _ _
    have h0 : totalLogRecords (initMemoryState V) = 0 := by
      simp [totalLogRecords, initMemoryState]
    have h0v : vectorStoreSize (initMemoryState V) = 0 := by
      simp [vectorStoreSize, initMemoryState]
    rw [h0] at hsz
    rw [h0v] at hsz
    simp only [if_false, Bool.false_eq_true]
    omega

/-- Witness for C10: one valid store followed by a `"bogus"`-category store
leaves one record in the logs but two index entries. -/
theorem c10_witness :
    validCategory "bogus" = false ∧
    totalLogRecords
        (store_memory (V := Unit) (fun _ => ())
          (runStores (fun _ => ()) (initMemoryState Unit)
            [⟨"conversation", "hello", {}, 3⟩]) "bogus" "x" {} 4).2 <
      vectorStoreSize
        (store_memory (V := Unit) (fun _ => ())
          (runStores (fun _ => ()) (initMemoryState Unit)
            [⟨"conversation", "hello", {}, 3⟩]) "bogus" "x" {} 4).2 :=
  ⟨by decide,
    (c10_invalid_category_store (fun _ => ())
      [⟨"conversation", "hello", {}, 3⟩] "bogus" "x" {} 4
      (by decide)).2.2.2.2.2.2⟩

/-! ## Claim C7: hybrid search -/

theorem findById_id (st : MemoryState V) (i : String) (m : MemRecord)
    (h : findById st i = some m) : m.id = i := by
  have := List.find?_some h
  exact of_decide_eq_true this

theorem resolveVec_ids_sublist (st : MemoryState V)
    (vecRes : List (String × ℚ)) :
    List.Sublist ((resolveVec st vecRes).map (fun r => r.record.id))
      (vecRes.map Prod.fst) := by
  induction vecRes with
  | nil => simp [resolveVec]
  | cons p rest ih =>
    simp only [resolveVec, List.filterMap_cons] at ih ⊢
    cases hf : findById st p.1 with
    | none =>
      simp only [Option.map_none']
      exact ih.cons p.1
    | some m =>
      simp only [Option.map_some', List.map_cons]
      have hid : m.id = p.1 := findById_id st p.1 m hf
      rw [hid]
      exact ih.cons₂ p.1

theorem filterMap_keep_ids_sublist
    (f : MemRecord → Option (MemRecord × ℚ))
    (hf : ∀ m p, f m = some p → p.1 = m) (l : List MemRecord) :
    List.Sublist ((l.filterMap f).map (fun p => p.1.id))
      (l.map (fun m => m.id)) := by
  induction l with
  | nil => simp
  | cons m rest ih =>
    simp only [List.filterMap_cons, List.map_cons]
    cases hm : f m with
    | none => exact ih.cons m.id
    | some p =>
      simp only [List.map_cons]
      rw [hf m p hm]
      exact ih.cons₂ m.id

theorem keyword_search_ids_nodup (st : MemoryState V) (query : String)
    (limit : Nat)
    (h : ((allMemories st).map (fun m => m.id)).Nodup) :
    ((keyword_search st query limit).map (fun p => p.1.id)).Nodup := by
  simp only [keyword_search]
  set f : MemRecord → Option (MemRecord × ℚ) := fun m =>
    if keywordMatchScore (pyLower query) m > 0 then
      some (m, keywordMatchScore (pyLower query) m)
    else none with hfdef
  have hf : ∀ m p, f m = some p → p.1 = m := by
    intro m p hm
    rw [hfdef] at hm
    dsimp only at hm
    split at hm
    · cases hm
      rfl
    · cases hm
  have h1 : (((allMemories st).filterMap f).map (fun p => p.1.id)).Nodup :=
    (filterMap_keep_ids_sublist f hf (allMemories st)).nodup h
  have h2 : List.Perm
      ((sortByDesc Prod.snd ((allMemories st).filterMap f)).map
        (fun p => p.1.id))
      (((allMemories st).filterMap f).map (fun p => p.1.id)) :=
    (sortByDesc_perm Prod.snd _).map _
  have h3 := h2.nodup_iff.mpr h1
  exact ((List.take_sublist limit _).map
    (fun p : MemRecord × ℚ => p.1.id)).nodup h3

/-- C7: hybrid search returns at most `limit` records with pairwise distinct
ids, sorted by non-increasing similarity score; every returned entry either
comes from the vector path with its vector similarity score, or is a
keyword-path hit with the fixed score 0.7 whose id the vector path did not
return.  The two hypotheses hold for every reachable state: the vector store
returns distinct ids and record ids are unique. -/
theorem c7_hybrid_search (st : MemoryState V) (vecRes : List (String × ℚ))
    (query : String) (limit : Nat)
    (hvec : (vecRes.map Prod.fst).Nodup)
    (hmem : ((allMemories st).map (fun m => m.id)).Nodup) :
    (search_memory st vecRes query "hybrid" limit).length ≤ limit ∧
    ((search_memory st vecRes query "hybrid" limit).map
      (fun r => r.record.id)).Nodup ∧
    (search_memory st vecRes query "hybrid" limit).Sorted
      (fun a b => b.score ≤ a.score) ∧
    ∀ r ∈ search_memory st vecRes query "hybrid" limit,
      r ∈ resolveVec st vecRes ∨
        (r.score = 7/10 ∧
          ¬ r.record.id ∈ (resolveVec st vecRes).map
            (fun v => v.record.id)) := by
  have hdef : search_memory st vecRes query "hybrid" limit =
      (sortByDesc (fun r => r.score)
        (resolveVec st vecRes ++
          ((keyword_search st query limit).filter
            (fun kr => ¬ kr.1.id ∈ (resolveVec st vecRes).map
              (fun r => r.record.id))).map
            (fun kr => ⟨kr.1, 7/10⟩))).take limit := by
    simp [search_memory]
  set combined : List ScoredMem :=
    resolveVec st vecRes ++
      ((keyword_search st query limit).filter
        (fun kr => ¬ kr.1.id ∈ (resolveVec st vecRes).map
          (fun r => r.record.id))).map
        (fun kr => ⟨kr.1, 7/10⟩) with hcombined
  rw [hdef]
  refine ⟨List.length_take_le _ _, ?_, ?_, ?_⟩
  · -- distinct ids
    have hresolved : ((resolveVec st vecRes).map
        (fun r => r.record.id)).Nodup :=
      (resolveVec_ids_sublist st vecRes).nodup hvec
    have hkw := keyword_search_ids_nodup st query limit hmem
    have hfiltered : ((((keyword_search st query limit).filter
        (fun kr => ¬ kr.1.id ∈ (resolveVec st vecRes).map
          (fun r => r.record.id))).map
        (fun kr => (⟨kr.1, 7/10⟩ : ScoredMem))).map
          (fun r => r.record.id)).Nodup := by
      rw [List.map_map]
      have hsub : List.Sublist
          (((keyword_search st query limit).filter
            (fun kr => ¬ kr.1.id ∈ (resolveVec st vecRes).map
              (fun r => r.record.id))).map
            ((fun r : ScoredMem => r.record.id) ∘
              (fun kr => (⟨kr.1, 7/10⟩ : ScoredMem))))
          ((keyword_search st query limit).map (fun p => p.1.id)) := by
        exact (List.filter_sublist _).map _
      exact hsub.nodup hkw
    have hdisj : ∀ x ∈ (resolveVec st vecRes).map (fun r => r.record.id),
        ¬ x ∈ (((keyword_search st query limit).filter
          (fun kr => ¬ kr.1.id ∈ (resolveVec st vecRes).map
            (fun r => r.record.id))).map
          (fun kr => (⟨kr.1, 7/10⟩ : ScoredMem))).map
            (fun r => r.record.id) := by
      intro x hx hx2
      rw [List.map_map] at hx2
      obtain ⟨kr, hkr, hkrx⟩ := List.mem_map.mp hx2
      obtain ⟨_, hpred⟩ := List.mem_filter.mp hkr
      have hkrx2 : kr.1.id = x := hkrx
      rw [← hkrx2] at hx
      exact (of_decide_eq_true hpred) hx
    have hcomb : (combined.map (fun r => r.record.id)).Nodup := by
      rw [hcombined, List.map_append, List.nodup_append]
      exact ⟨hresolved, hfiltered, hdisj⟩
    have hperm : List.Perm
        ((sortByDesc (fun r => r.score) combined).map (fun r => r.record.id))
        (combined.map (fun r => r.record.id)) :=
      (sortByDesc_perm _ _).map _
    exact ((List.take_sublist limit _).map _).nodup (hperm.nodup_iff.mpr hcomb)
  · -- sorted by non-increasing score
    exact List.Pairwise.sublist (List.take_sublist _ _)
      (sortByDesc_sorted (fun r : ScoredMem => r.score) combined)
  · -- provenance of each result
    intro r hr
    have hr2 : r ∈ combined := by
      have := List.take_subset limit
        (sortByDesc (fun r : ScoredMem => r.score) combined) hr
      exact (sortByDesc_perm (fun r : ScoredMem => r.score) combined).subset
        this
    rcases List.mem_append.mp hr2 with hl | hrr
    · exact Or.inl hl
    · obtain ⟨kr, hkr, hkrr⟩ := List.mem_map.mp hrr
      obtain ⟨_, hpred⟩ := List.mem_filter.mp hkr
      refine Or.inr ⟨?_, ?_⟩
      · rw [← hkrr]
      · rw [← hkrr]
        exact of_decide_eq_true hpred

/-- Witness for C7 on a concrete two-record state and a one-hit vector
result. -/
theorem c7_witness :
    (([("mem_1", 9/10)] : List (String × ℚ)).map Prod.fst).Nodup ∧
    ((search_memory c7state [("mem_1", 9/10)] "alpha" "hybrid" 5).map
      (fun r => r.record.id)).Nodup ∧
    (search_memory c7state [("mem_1", 9/10)] "alpha" "hybrid" 5).Sorted
      (fun a b => b.score ≤ a.score) :=
  ⟨by decide,
    (c7_hybrid_search c7state [("mem_1", 9/10)] "alpha" 5 (by decide)
      (by decide)).2.1,
    (c7_hybrid_search c7state [("mem_1", 9/10)] "alpha" 5 (by decide)
      (by decide)).2.2.1⟩

/-! ## Claim C5: the empty query -/

/-- C5 counterexample: processing the empty query on a fresh coordinator
terminates as a normal successful return whose response IS the fixed
insufficient-information apology sentence; no distinct failure is signalled
anywhere (the interactive loop in `main.py` merely skips empty input before
the pipeline is ever invoked). -/
theorem c5_counterexample :
    (process_query (V := Unit) (fun _ => ()) (fun _ _ _ => [])
      (initMemoryState Unit) "" 0).1 = insufficientInfoResponse := by decide

/-- C5 (amended): for EVERY memory state and similarity backend, processing
the empty query returns the fixed insufficient-information sentence as an
ordinary successful response — the pipeline has no failure signal for
malformed or empty queries. -/
theorem c5_empty_query_apology (V : Type) (embed : String → V)
    (vecSearch : List (String × V) → String → Nat → List (String × ℚ))
    (st : MemoryState V) (now : Nat) :
    (process_query embed vecSearch st "" now).1 = insufficientInfoResponse
    := by
  have hplan : ∀ scores : List ℚ,
      create_execution_plan "" (analyze_complexity "") scores = [] := by
    intro scores
    have hc : analyze_complexity "" = "simple" := by decide
    rw [hc]
    simp only [create_execution_plan]
    have h1 : containsAnyKw (pyLower "") memoryKeywordsPlan = false := by
      decide
    have h2 : extract_research_topics "" = [] := by decide
    rw [h1]
    simp only [Bool.false_eq_true, if_false, h2]
    cases needsResearch "simple" scores <;>
      simp [researchSteps, researchStepsFrom]
  have hresp : (process_query embed vecSearch st "" now).1 =
      synthesize_response
        (execute_plan st (create_execution_plan "" (analyze_complexity "")
          ((search_memory st (vecSearch st.vsEntries "" 5) "" "hybrid" 5).map
            (fun r => r.score))))
        (search_memory st (vecSearch st.vsEntries "" 5) "" "hybrid" 5).length
      := rfl
  rw [hresp, hplan]
  simp [execute_plan, execute_plan_aux, synthesize_response,
    synthesizeGeneral]
  decide

/-! ## Claim C4: vector search scores -/

theorem sqDist_nonneg (u v : List ℝ) : 0 ≤ sqDist u v := by
  unfold sqDist
  apply List.sum_nonneg
  intro x hx
  obtain ⟨p, _, hp⟩ := List.mem_map.mp hx
  rw [← hp]
  positivity

/-- C4 (amended): every pair returned by `VectorStore.search` carries the
score `1 / (1 + d)` where `d` is the SQUARED Euclidean distance between the
query vector and that entry's stored vector (the value faiss `IndexFlatL2`
reports); every score lies in `(0, 1]` and the result is sorted by
descending score. -/
theorem c4_search_properties (vs : VectorStore) (hashW : String → Nat)
    (q : String) (k : Nat) :
    (vs.search hashW q k).Sorted (fun a b => b.2 ≤ a.2) ∧
    ∀ p ∈ vs.search hashW q k,
      (0 < p.2 ∧ p.2 ≤ 1) ∧
      ∃ v, (p.1, v) ∈ vs.entries ∧
        p.2 = 1 / (1 + sqDist (text_to_vector hashW vs.dimension q) v) := by
  unfold VectorStore.search
  cases he : vs.entries.isEmpty with
  | true => simp
  | false =>
    simp only [Bool.false_eq_true, if_false]
    set qv := text_to_vector hashW vs.dimension q with hqv
    set scored := vs.entries.map (fun e => (e.1, sqDist qv e.2)) with hscored
    have hmem_scored : ∀ p ∈ scored, ∃ ent ∈ vs.entries,
        p = (ent.1, sqDist qv ent.2) := by
      intro p hp
      obtain ⟨ent, hent, hpe⟩ := List.mem_map.mp hp
      exact ⟨ent, hent, hpe.symm⟩
    have hmem_take : ∀ p ∈ (sortByAsc Prod.snd scored).take
        (min k vs.entries.length), ∃ ent ∈ vs.entries,
        p = (ent.1, sqDist qv ent.2) := by
      intro p hp
      exact hmem_scored p
        ((sortByAsc_perm Prod.snd scored).subset (List.take_subset _ _ hp))
    constructor
    · -- descending scores
      rw [List.Sorted, List.pairwise_map]
      have hsorted : ((sortByAsc Prod.snd scored).take
          (min k vs.entries.length)).Pairwise
          (fun a b : String × ℝ => a.2 ≤ b.2) :=
        List.Pairwise.sublist (List.take_sublist _ _)
          (sortByAsc_sorted Prod.snd scored)
      apply List.Pairwise.imp_of_mem ?_ hsorted
      intro a b ha hb hab
      obtain ⟨ea, _, hea⟩ := hmem_take a ha
      have ha0 : 0 ≤ a.2 := by
        rw [hea]
        exact sqDist_nonneg _ _
      exact one_div_le_one_div_of_le (by linarith) (by linarith)
    · intro p hp
      obtain ⟨e, hetake, hpe⟩ := List.mem_map.mp hp
      obtain ⟨ent, hent, hee⟩ := hmem_take e hetake
      have hd : 0 ≤ sqDist qv ent.2 := sqDist_nonneg _ _
      have hp2 : p.2 = 1 / (1 + sqDist qv ent.2) := by
        rw [← hpe, hee]
      refine ⟨⟨?_, ?_⟩, ent.2, ?_, ?_⟩
      · rw [hp2]
        positivity
      · rw [hp2]
        rw [div_le_one (by linarith)]
        linarith
      · have hp1 : p.1 = ent.1 := by
          rw [← hpe, hee]
        rw [hp1]
        exact hent
      · exact hp2

theorem c4_tv_a : text_to_vector charHash 2 "a" = [0, 1] := by
  have hb : buckets charHash 2 "a" = [1] := by decide
  unfold text_to_vector
  rw [hb]
  have hcv : countVec 2 [1] = [(0 : ℝ), 1] := by
    simp [countVec, bump, List.replicate, List.getD]
  rw [hcv]
  unfold normalize
  have hs : sqNorm [(0 : ℝ), 1] = 1 := by
    simp [sqNorm]
  rw [hs, Real.sqrt_one]
  norm_num

theorem c4_tv_b : text_to_vector charHash 2 "b" = [1, 0] := by
  have hb : buckets charHash 2 "b" = [0] := by decide
  unfold text_to_vector
  rw [hb]
  have hcv : countVec 2 [0] = [(1 : ℝ), 0] := by
    simp [countVec, bump, List.replicate, List.getD]
  rw [hcv]
  unfold normalize
  have hs : sqNorm [(1 : ℝ), 0] = 1 := by
    simp [sqNorm]
  rw [hs, Real.sqrt_one]
  norm_num

theorem c4store_entries : c4store.entries = [("mem_0", [0, 1])] := by
  simp [c4store, VectorStore.add, c4_tv_a]

theorem c4_sqDist_eval : sqDist [(1 : ℝ), 0] [0, 1] = 2 := by
  simp [sqDist]
  norm_num

theorem c4_search_eval :
    c4store.search charHash "b" 5 = [("mem_0", (1 : ℝ)/3)] := by
  unfold VectorStore.search
  have hdim : c4store.dimension = 2 := rfl
  rw [c4store_entries, hdim, c4_tv_b]
  simp [sortByAsc, List.insertionSort, c4_sqDist_eval]
  norm_num

/-- C4 counterexample: on the store holding the single text `"a"` (under the
concrete hash `charHash`), searching `"b"` returns score 1/3 — which is
`1 / (1 + d²)` for the squared distance 2 — while the claim's formula
`1 / (1 + d)` over the Euclidean distance `d = √2` would give
`1 / (1 + √2) ≠ 1/3`. -/
theorem c4_counterexample :
    c4store.search charHash "b" 5 = [("mem_0", (1 : ℝ)/3)] ∧
    ∀ v, ("mem_0", v) ∈ c4store.entries →
      l2Dist (text_to_vector charHash c4store.dimension "b") v =
        Real.sqrt 2 ∧
      (1 : ℝ)/3 ≠
        1 / (1 + l2Dist (text_to_vector charHash c4store.dimension "b") v)
    := by
  refine ⟨c4_search_eval, ?_⟩
  intro v hv
  rw [c4store_entries] at hv
  simp only [List.mem_singleton, Prod.mk.injEq, true_and] at hv
  subst hv
  have hdim : c4store.dimension = 2 := rfl
  rw [hdim, c4_tv_b]
  have hl2 : l2Dist [(1 : ℝ), 0] [0, 1] = Real.sqrt 2 := by
    unfold l2Dist
    rw [c4_sqDist_eval]
  refine ⟨hl2, ?_⟩
  rw [hl2]
  have hs2 : Real.sqrt 2 ≠ 2 := by
    intro h
    have h2 := Real.sq_sqrt (by norm_num : (0 : ℝ) ≤ 2)
    rw [h] at h2
    norm_num at h2
  have hpos : (0 : ℝ) < 1 + Real.sqrt 2 := by positivity
  intro heq
  rw [div_eq_div_iff (by norm_num : (3 : ℝ) ≠ 0) (ne_of_gt hpos)] at heq
  apply hs2
  linarith

/-- Witness for C4 on the concrete one-entry store. -/
theorem c4_witness :
    ("mem_0", (1 : ℝ)/3) ∈ c4store.search charHash "b" 5 ∧
    (0 < (1 : ℝ)/3 ∧ (1 : ℝ)/3 ≤ 1) ∧
    ∃ v, ("mem_0", v) ∈ c4store.entries ∧
      (1 : ℝ)/3 =
        1 / (1 + sqDist (text_to_vector charHash c4store.dimension "b") v)
    := by
  have hmem : ("mem_0", (1 : ℝ)/3) ∈ c4store.search charHash "b" 5 := by
    rw [c4_search_eval]
    exact List.mem_singleton.mpr rfl
  have h := (c4_search_properties c4store charHash "b" 5).2 _ hmem
  exact ⟨hmem, h.1, h.2⟩

end MultiAgent
